import Mathlib

/-!
Verification of the map-optimizer service (`src/app.py`) against its
natural-language specification.

The development shallowly embeds the algorithmic core of the program:
the EXIF orientation normalizer (`correct_image_orientation`), the
adaptive JPEG compressor (`compress_image_adaptively`), the horizontal
tiler (`split_image_horizontally`), the batch enqueuer (`enqueue_tasks`)
and the single-file worker (`process_single`).

Modelling conventions:
* Machine integers are `Nat`; the sizes involved never overflow 64 bits
  in the source's regime and Python integers are unbounded anyway.
* JPEG encoding is opaque to the program logic, so the byte size of an
  encode is an arbitrary oracle `e : ℕ → ℚ → ℕ` mapping
  (quality, resize_factor) to a byte count; the resampling performed
  before an encode is absorbed into the oracle.
* Python floats are IEEE-754 binary64.  The only float state in the
  search loop is `resize_factor`, whose values form a fixed finite
  sequence independent of the input; those values are embedded exactly
  as rationals (`rVal` below), so the loop's comparisons are modelled
  bit-for-bit.  The pre-downscale factor `(20 / mp) ** 0.5` is
  input-dependent; it is modelled as exact real arithmetic followed by
  truncation (see `searchDims`), which is the only idealization made.
-/

/-- Byte-size budget from `src/app.py` line 25: `MAX_FILE_SIZE = 31457280` (30 MB). -/
def MAX_FILE_SIZE : ℕ := 31457280

/-- The exact IEEE-754 binary64 values taken by the Python variable
`resize_factor` in `compress_image_adaptively` (lines 63, 79):
`rVal i` is the double obtained from `1.0` by `i` in-place evaluations of
`resize_factor -= 0.05` under round-to-nearest-even.  Their decimal reprs
are 1.0, 0.95, 0.8999999999999999, 0.8499999999999999, 0.7999999999999998,
0.7499999999999998, 0.6999999999999997, 0.6499999999999997,
0.5999999999999996, 0.5499999999999996, 0.4999999999999996; each is listed
here as an exact dyadic rational with denominator 2^54.  Note that the
tenth subtraction lands strictly below 1/2.  The loop never performs more
than ten subtractions, so indices past 10 are given the index-10 value. -/
def rVal : ℕ → ℚ
  | 0 => 1
  | 1 => 17113678584007884 / 18014398509481984
  | 2 => 16212958658533784 / 18014398509481984
  | 3 => 15312238733059684 / 18014398509481984
  | 4 => 14411518807585584 / 18014398509481984
  | 5 => 13510798882111484 / 18014398509481984
  | 6 => 12610078956637384 / 18014398509481984
  | 7 => 11709359031163284 / 18014398509481984
  | 8 => 10808639105689184 / 18014398509481984
  | 9 => 9907919180215084 / 18014398509481984
  | _ + 10 => 9007199254740985 / 18014398509481984

/-- For the first ten values the float comparison `resize_factor > min_resize`
(line 78) is true. -/
lemma rVal_half_lt : ∀ i < 10, (1 : ℚ) / 2 < rVal i := by
  intro i hi
  interval_cases i <;> norm_num [rVal]

/-- After ten subtractions the float `resize_factor` is strictly below `0.5`,
so the comparison on line 78 is false. -/
lemma rVal_ten_lt_half : rVal 10 < 1 / 2 := by
  show (9007199254740985 : ℚ) / 18014398509481984 < 1 / 2
  norm_num

/-- Values beyond the tenth subtraction (never reached by the loop) equal the
index-10 value. -/
lemma rVal_ge_ten {i : ℕ} (h : 10 ≤ i) : rVal i = rVal 10 := by
  obtain ⟨k, rfl⟩ := Nat.exists_eq_add_of_le h
  rw [Nat.add_comm]
  rfl

/-- The search loop of `compress_image_adaptively` (`src/app.py` lines 71-81),
translated state-for-state.  State: the current JPEG `quality` `q`
(`quality = 95` initially, line 64) and the number `i` of float
subtractions already applied to `resize_factor` (so the current factor is
`rVal i`).  The oracle `e q r` is the byte size written by
`resized_img.save(..., quality=q)` after resampling by factor `r`
(lines 72-73).  The loop body:
byte size fits the budget → break with this candidate (lines 74-75);
else `quality > min_quality` → `quality -= 5` (lines 76-77);
else `resize_factor > min_resize` → `resize_factor -= 0.05` (lines 78-79);
else → `raise ValueError` (line 81), modelled as `none`.
In addition to the source's result, the model returns the list of
candidates encoded, in order, so that encode-count and monotonicity
properties can be stated. -/
def compressLoop (B : ℕ) (e : ℕ → ℚ → ℕ) (q i : ℕ) : List (ℕ × ℚ) × Option (ℕ × ℚ) :=
  if e q (rVal i) ≤ B then
    ([(q, rVal i)], some (q, rVal i))
  else if 90 < q then
    ((q, rVal i) :: (compressLoop B e (q - 5) i).1, (compressLoop B e (q - 5) i).2)
  else if (1 : ℚ) / 2 < rVal i then
    ((q, rVal i) :: (compressLoop B e q (i + 1)).1, (compressLoop B e q (i + 1)).2)
  else
    ([(q, rVal i)], none)
termination_by q + (10 - i)
decreasing_by
  · omega
  · have hi : i < 10 := by
      by_contra hten
      push_neg at hten
      have h2 : (1 : ℚ) / 2 < rVal i := by assumption
      rw [rVal_ge_ten hten] at h2
      exact absurd h2 (not_lt.mpr (le_of_lt rVal_ten_lt_half))
    omega

/-- The full candidate schedule the loop can attempt, in order: quality 95
then 90 at full resolution, then quality 90 at each of the ten successively
decremented resize factors.  Twelve candidates in total. -/
def schedule : List (ℕ × ℚ) :=
  [(95, rVal 0), (90, rVal 0), (90, rVal 1), (90, rVal 2), (90, rVal 3), (90, rVal 4),
   (90, rVal 5), (90, rVal 6), (90, rVal 7), (90, rVal 8), (90, rVal 9), (90, rVal 10)]

lemma schedule_length : schedule.length = 12 := rfl

/-- Raster image abstraction: pixel dimensions, the accumulated
counter-clockwise rotation applied via `Image.rotate` (degrees, as PIL
counts them), and the PIL mode string. -/
structure Img where
  width : ℕ
  height : ℕ
  rotationCCW : ℕ
  mode : String
deriving DecidableEq, Repr

/-- PIL's `img.rotate(deg, expand=True)` for the right-angle rotations the
program uses: a 90° or 270° rotation swaps width and height, a 180°
rotation keeps them; the rotation accumulates. -/
def Img.rotate (img : Img) (deg : ℕ) : Img :=
  { width := if deg % 180 = 90 then img.height else img.width
    height := if deg % 180 = 90 then img.width else img.height
    rotationCCW := img.rotationCCW + deg
    mode := img.mode }

/-- Outcome of `img._getexif()` on line 36: raising an exception
(malformed metadata, caught by the bare `except` on line 45), returning a
falsy value (no EXIF block, line 37), or returning a tag dictionary whose
`Orientation` entry (`exif.get(orientation, None)`, line 38) is modelled
as an optional integer. -/
inductive ExifData
  | malformed
  | noExif
  | tags (orientation : Option ℤ)
deriving DecidableEq, Repr

/-- Translation of `correct_image_orientation` (`src/app.py` lines 31-47).
A raised exception anywhere in the `try` block is swallowed by
`except Exception: pass`, so the malformed case returns the image
untouched; otherwise EXIF orientation 3 rotates by 180°, 6 by 270°,
8 by 90°, and any other value (or a missing entry or absent EXIF block)
leaves the image unchanged.  The function is total: no error escapes. -/
def correct_image_orientation (exif : ExifData) (img : Img) : Img :=
  match exif with
  | .malformed => img
  | .noExif => img
  | .tags v =>
    if v = some 3 then img.rotate 180
    else if v = some 6 then img.rotate 270
    else if v = some 8 then img.rotate 90
    else img

/-- Lines 52-54 of `compress_image_adaptively`: orientation correction
followed by `img.convert('RGB')` when the mode is not already RGB (the
conversion changes neither dimensions nor rotation). -/
def normalizeForCompress (exif : ExifData) (img : Img) : Img :=
  let img := correct_image_orientation exif img
  if img.mode = "RGB" then img else { img with mode := "RGB" }

/-- The pre-downscale step of `compress_image_adaptively`
(`src/app.py` lines 56-61), applied once before the search loop.
`current_megapixels = w*h/1_000_000 > 20` holds exactly when
`w*h > 20_000_000` (the float quotient is rounded monotonically and
`20.0` is exact), and `original_size > MAX_FILE_SIZE` is integral.  When
both hold, the source computes
`int(w * (20/current_megapixels)**0.5)` and likewise for the height;
with the float arithmetic idealized to exact reals this is
`⌊√(20_000_000·w/h)⌋` and `⌊√(20_000_000·h/w)⌋`, i.e. `Nat.sqrt` of the
floor quotients (floors commute here because the comparands are
integers).  Otherwise the dimensions are unchanged. -/
def searchDims (origSize w h : ℕ) : ℕ × ℕ :=
  if MAX_FILE_SIZE < origSize ∧ 20000000 < w * h then
    (Nat.sqrt (20000000 * w / h), Nat.sqrt (20000000 * h / w))
  else (w, h)

/-- Translation of `compress_image_adaptively` (`src/app.py` lines 49-83):
normalize orientation and mode (lines 52-54), pre-downscale at most once
(lines 56-61), then run the search loop from `quality = 95`,
`resize_factor = 1.0` (lines 63-81).  The oracle `e dims q r` is the byte
size of the JPEG obtained from the raster of dimensions `dims` resampled
by factor `r` and saved at quality `q` (with `optimize=True` and the
80-DPI metadata).  The result is the list of candidates encoded together
with the chosen candidate, or `none` for the `ValueError` on line 81. -/
def compress_image_adaptively (origSize : ℕ) (exif : ExifData) (img : Img)
    (e : ℕ × ℕ → ℕ → ℚ → ℕ) : List (ℕ × ℚ) × Option (ℕ × ℚ) :=
  let img := normalizeForCompress exif img
  let dims := searchDims origSize img.width img.height
  compressLoop MAX_FILE_SIZE (e dims) 95 0

/-- Loop step: a candidate that fits the budget is returned immediately. -/
lemma compressLoop_fit {B : ℕ} {e : ℕ → ℚ → ℕ} {q i : ℕ} (h : e q (rVal i) ≤ B) :
    compressLoop B e q i = ([(q, rVal i)], some (q, rVal i)) := by
  rw [compressLoop, if_pos h]

/-- Loop step: at quality 95 a candidate over budget lowers the quality. -/
lemma compressLoop_quality {B : ℕ} {e : ℕ → ℚ → ℕ} {i : ℕ} (h : ¬ e 95 (rVal i) ≤ B) :
    compressLoop B e 95 i =
      ((95, rVal i) :: (compressLoop B e 90 i).1, (compressLoop B e 90 i).2) := by
  rw [compressLoop, if_neg h, if_pos (by norm_num : (90 : ℕ) < 95)]

/-- Loop step: at quality 90 with fewer than ten subtractions done, a
candidate over budget decrements the resize factor. -/
lemma compressLoop_resize {B : ℕ} {e : ℕ → ℚ → ℕ} {i : ℕ} (hi : i < 10)
    (h : ¬ e 90 (rVal i) ≤ B) :
    compressLoop B e 90 i =
      ((90, rVal i) :: (compressLoop B e 90 (i + 1)).1, (compressLoop B e 90 (i + 1)).2) := by
  rw [compressLoop, if_neg h, if_neg (by norm_num : ¬ (90 : ℕ) < 90),
    if_pos (rVal_half_lt i hi)]

/-- Loop step: at quality 90 after ten subtractions, a candidate over budget
exhausts the search (the `ValueError` of line 81). -/
lemma compressLoop_exhausted {B : ℕ} {e : ℕ → ℚ → ℕ} (h : ¬ e 90 (rVal 10) ≤ B) :
    compressLoop B e 90 10 = ([(90, rVal 10)], none) := by
  rw [compressLoop, if_neg h, if_neg (by norm_num : ¬ (90 : ℕ) < 90),
    if_neg (not_lt.mpr (le_of_lt rVal_ten_lt_half))]

/-- Master characterization of the search loop started from its initial
state (`quality = 95`, no resize steps): the candidates it encodes are a
prefix of `schedule`, at most twelve encodes happen, the returned
candidate is the first schedule entry fitting the budget (`List.find?`),
and a failed search has encoded the entire schedule. -/
lemma compressLoop_master (B : ℕ) (e : ℕ → ℚ → ℕ) :
    (compressLoop B e 95 0).1 = schedule.take (compressLoop B e 95 0).1.length ∧
    (compressLoop B e 95 0).1.length ≤ 12 ∧
    (compressLoop B e 95 0).2 = schedule.find? (fun c => decide (e c.1 c.2 ≤ B)) ∧
    ((compressLoop B e 95 0).2 = none → (compressLoop B e 95 0).1 = schedule) := by
  by_cases h0 : e 95 (rVal 0) ≤ B
  · rw [compressLoop_fit h0]
    exact ⟨rfl, by simp, by simp [schedule, List.find?, h0], by simp⟩
  rw [compressLoop_quality h0]
  by_cases h1 : e 90 (rVal 0) ≤ B
  · rw [compressLoop_fit h1]
    exact ⟨rfl, by simp, by simp [schedule, List.find?, h0, h1], by simp⟩
  rw [compressLoop_resize (by norm_num) h1]
  by_cases h2 : e 90 (rVal 1) ≤ B
  · rw [compressLoop_fit h2]
    exact ⟨rfl, by simp, by simp [schedule, List.find?, h0, h1, h2], by simp⟩
  rw [compressLoop_resize (by norm_num) h2]
  by_cases h3 : e 90 (rVal 2) ≤ B
  · rw [compressLoop_fit h3]
    exact ⟨rfl, by simp, by simp [schedule, List.find?, h0, h1, h2, h3], by simp⟩
  rw [compressLoop_resize (by norm_num) h3]
  by_cases h4 : e 90 (rVal 3) ≤ B
  · rw [compressLoop_fit h4]
    exact ⟨rfl, by simp, by simp [schedule, List.find?, h0, h1, h2, h3, h4], by simp⟩
  rw [compressLoop_resize (by norm_num) h4]
  by_cases h5 : e 90 (rVal 4) ≤ B
  · rw [compressLoop_fit h5]
    exact ⟨rfl, by simp, by simp [schedule, List.find?, h0, h1, h2, h3, h4, h5], by simp⟩
  rw [compressLoop_resize (by norm_num) h5]
  by_cases h6 : e 90 (rVal 5) ≤ B
  · rw [compressLoop_fit h6]
    exact ⟨rfl, by simp, by simp [schedule, List.find?, h0, h1, h2, h3, h4, h5, h6], by simp⟩
  rw [compressLoop_resize (by norm_num) h6]
  by_cases h7 : e 90 (rVal 6) ≤ B
  · rw [compressLoop_fit h7]
    exact ⟨rfl, by simp, by simp [schedule, List.find?, h0, h1, h2, h3, h4, h5, h6, h7], by simp⟩
  rw [compressLoop_resize (by norm_num) h7]
  by_cases h8 : e 90 (rVal 7) ≤ B
  · rw [compressLoop_fit h8]
    exact ⟨rfl, by simp, by simp [schedule, List.find?, h0, h1, h2, h3, h4, h5, h6, h7, h8],
      by simp⟩
  rw [compressLoop_resize (by norm_num) h8]
  by_cases h9 : e 90 (rVal 8) ≤ B
  · rw [compressLoop_fit h9]
    exact ⟨rfl, by simp, by simp [schedule, List.find?, h0, h1, h2, h3, h4, h5, h6, h7, h8, h9],
      by simp⟩
  rw [compressLoop_resize (by norm_num) h9]
  by_cases h10 : e 90 (rVal 9) ≤ B
  · rw [compressLoop_fit h10]
    exact ⟨rfl, by simp,
      by simp [schedule, List.find?, h0, h1, h2, h3, h4, h5, h6, h7, h8, h9, h10], by simp⟩
  rw [compressLoop_resize (by norm_num) h10]
  by_cases h11 : e 90 (rVal 10) ≤ B
  · rw [compressLoop_fit h11]
    exact ⟨rfl, by simp,
      by simp [schedule, List.find?, h0, h1, h2, h3, h4, h5, h6, h7, h8, h9, h10, h11], by simp⟩
  rw [compressLoop_exhausted h11]
  exact ⟨rfl, by simp,
    by simp [schedule, List.find?, h0, h1, h2, h3, h4, h5, h6, h7, h8, h9, h10, h11],
    fun _ => rfl⟩

/-- The master characterization transported to `compress_image_adaptively`. -/
lemma compress_master (origSize : ℕ) (exif : ExifData) (img : Img)
    (e : ℕ × ℕ → ℕ → ℚ → ℕ) :
    (compress_image_adaptively origSize exif img e).1 =
      schedule.take (compress_image_adaptively origSize exif img e).1.length ∧
    (compress_image_adaptively origSize exif img e).1.length ≤ 12 ∧
    (compress_image_adaptively origSize exif img e).2 =
      schedule.find? (fun c =>
        decide (e (searchDims origSize (normalizeForCompress exif img).width
          (normalizeForCompress exif img).height) c.1 c.2 ≤ MAX_FILE_SIZE)) ∧
    ((compress_image_adaptively origSize exif img e).2 = none →
      (compress_image_adaptively origSize exif img e).1 = schedule) := by
  exact compressLoop_master MAX_FILE_SIZE
    (e (searchDims origSize (normalizeForCompress exif img).width
      (normalizeForCompress exif img).height))

/-- Row tile of a raster: the half-open source row range `[y1, y2)` of the
slice `img[y1:y2, :]` and its (full) pixel width. -/
structure Tile where
  y1 : ℕ
  y2 : ℕ
  width : ℕ
deriving DecidableEq, Repr

/-- Translation of `split_image_horizontally` (`src/app.py` lines 89-99) on a
raster of height `h` and width `w`: `tile_height = h // parts`; tile `i`
is the slice from row `i * tile_height` up to row `(i+1) * tile_height`,
except that the final tile extends to row `h`.  The source performs no
validation of `parts` whatsoever. -/
def split_image_horizontally (h w : ℕ) (parts : ℕ) : List Tile :=
  let tileHeight := h / parts
  (List.range parts).map fun i =>
    { y1 := i * tileHeight
      y2 := if i = parts - 1 then h else (i + 1) * tileHeight
      width := w }

/-- The tracker file holds a set of processed file names; `update_tracker`
(`src/app.py` lines 120-125) writes `existing.union(new_files)`. -/
def update_tracker (newFiles existing : Finset String) : Finset String :=
  existing ∪ newFiles

/-- Translation of the task-listing logic of `/enqueue_tasks`
(`src/app.py` lines 139-140): of the listed blob names, keep those not in
the processed tracker and not directories (trailing `/`), truncate to
`max_files`, and create one Cloud Task per kept name (lines 145-160).
Each created task carries exactly one `file_path` and its worker downloads
only that path, so the returned list is the set of files that will be
downloaded and processed by this batch. -/
def enqueue_tasks (processed : Finset String) (blobs : List String)
    (maxFiles : ℕ) : List String :=
  (blobs.filter fun b => decide (b ∉ processed) && !(b.endsWith "/")).take maxFiles

/-- Pipeline stages of the single-file worker, in the order
`/process_single` runs them (`src/app.py` lines 185-207). -/
inductive Stage
  | download
  | pdfExtract
  | compressor
  | tiler
  | assembler
  | upload
  | trackerUpdate
deriving DecidableEq, Repr

/-- Worker response: the JSON bodies returned by `/process_single`
(`skipped`, `procesado`, or the per-file error from the handler's
`except` block). -/
inductive Response
  | skipped (name : String)
  | procesado (name : String)
  | error (msg : String)
deriving DecidableEq, Repr

/-- Observable outcome of one `/process_single` invocation: the tracker
contents after the call, the list of objects uploaded to the output
bucket, the stages executed in order, the byte size of the JPEG handed to
the tiler (when the tiler is reached), and the HTTP response. -/
structure SingleOutcome where
  tracker : Finset String
  uploads : List String
  stages : List Stage
  tilerInputBytes : Option ℕ
  response : Response
deriving DecidableEq

/-- The raster-format allow-list of `src/app.py` line 195. -/
def rasterExts : List String := [".jpg", ".jpeg", ".png", ".tif", ".tiff"]

/-- Translation of the `/process_single` worker (`src/app.py` lines
167-210).  Inputs: the tracker and upload state before the call, the
file's path and lowercased extension, and the data the pipeline consumes
(original byte size, EXIF data, decoded raster, encode-size oracle, and
the byte size `pdfRenderBytes` of the JPEG that
`extract_first_page_from_pdf` writes for a PDF input).  Control flow of
the source: download (line 190); `.pdf` extension → first page rendered
straight to JPEG (line 194) and onward to the tiler; allow-listed raster
extension → `compress_image_adaptively` (line 196), whose `ValueError`
propagates to the handler's `except` block, aborting the file with no
upload and no tracker update; any other extension → skip (line 198).
A completed pipeline uploads the assembled PDF (line 204) and only then
unions the file into the tracker (line 206). -/
def process_single (tracker : Finset String) (uploads : List String)
    (filePath ext : String) (origSize : ℕ) (exif : ExifData) (img : Img)
    (e : ℕ × ℕ → ℕ → ℚ → ℕ) (pdfRenderBytes : ℕ) (outputName : String) : SingleOutcome :=
  if ext = ".pdf" then
    { tracker := update_tracker {filePath} tracker
      uploads := uploads ++ [outputName]
      stages := [.download, .pdfExtract, .tiler, .assembler, .upload, .trackerUpdate]
      tilerInputBytes := some pdfRenderBytes
      response := .procesado filePath }
  else if rasterExts.contains ext then
    match (compress_image_adaptively origSize exif img e).2 with
    | none =>
      { tracker := tracker
        uploads := uploads
        stages := [.download, .compressor]
        tilerInputBytes := none
        response := .error "No se pudo reducir el archivo sin comprometer la calidad." }
    | some (q, r) =>
      { tracker := update_tracker {filePath} tracker
        uploads := uploads ++ [outputName]
        stages := [.download, .compressor, .tiler, .assembler, .upload, .trackerUpdate]
        tilerInputBytes := some (e (searchDims origSize
          (normalizeForCompress exif img).width
          (normalizeForCompress exif img).height) q r)
        response := .procesado filePath }
  else
    { tracker := tracker
      uploads := uploads
      stages := [.download]
      tilerInputBytes := none
      response := .skipped filePath }

/-- C1: whenever the adaptive compressor returns success, the byte size of
the returned JPEG candidate is at most the budget `MAX_FILE_SIZE`; and the
returned candidate is the first one in the search schedule that fits — the
search stops at the first fit and attempts no further optimization
(`List.find?` semantics). -/
theorem compress_budget_first_fit (origSize : ℕ) (exif : ExifData) (img : Img)
    (e : ℕ × ℕ → ℕ → ℚ → ℕ) :
    (∀ q r, (compress_image_adaptively origSize exif img e).2 = some (q, r) →
      e (searchDims origSize (normalizeForCompress exif img).width
        (normalizeForCompress exif img).height) q r ≤ MAX_FILE_SIZE) ∧
    (compress_image_adaptively origSize exif img e).2 =
      schedule.find? (fun c =>
        decide (e (searchDims origSize (normalizeForCompress exif img).width
          (normalizeForCompress exif img).height) c.1 c.2 ≤ MAX_FILE_SIZE)) := by
  obtain ⟨-, -, hfind, -⟩ := compress_master origSize exif img e
  refine ⟨?_, hfind⟩
  intro q r hsome
  rw [hfind] at hsome
  simpa using List.find?_some hsome

/-- Concrete instance of `compress_budget_first_fit`: an oracle that always
reports zero bytes fits at the very first candidate (quality 95, factor 1). -/
theorem compress_budget_first_fit_witness :
    (compress_image_adaptively 0 ExifData.noExif ⟨100, 100, 0, "RGB"⟩
      (fun _ _ _ => (0 : ℕ))).2 = some (95, 1) ∧ (0 : ℕ) ≤ MAX_FILE_SIZE := by
  have hc : (compress_image_adaptively 0 ExifData.noExif ⟨100, 100, 0, "RGB"⟩
      (fun _ _ _ => (0 : ℕ))).2 = some (95, 1) := by
    have h := compressLoop_fit (B := MAX_FILE_SIZE)
      (e := fun _ _ => (0 : ℕ)) (q := 95) (i := 0) (Nat.zero_le _)
    exact congrArg Prod.snd h
  exact ⟨hc, (compress_budget_first_fit 0 ExifData.noExif ⟨100, 100, 0, "RGB"⟩
    (fun _ _ _ => (0 : ℕ))).1 95 1 hc⟩

/-- Tile `i` of a split, read off the defining map. -/
lemma split_getD {h w parts i : ℕ} (hi : i < parts) :
    (split_image_horizontally h w parts).getD i ⟨0, 0, 0⟩ =
      { y1 := i * (h / parts)
        y2 := if i = parts - 1 then h else (i + 1) * (h / parts)
        width := w } := by
  simp [split_image_horizontally, List.getD_eq_getElem?_getD, List.getElem?_map,
    List.getElem?_range hi]

/-- C2: for a raster of height `h` and width `w` and any parts count
`parts` with `1 ≤ parts ≤ h`, the tiler returns exactly `parts` tiles;
with `tileHeight = h / parts`, tile `i` for `i < parts - 1` covers rows
`[i*tileHeight, (i+1)*tileHeight)`, the final tile covers
`[(parts-1)*tileHeight, h)`, every tile has width `w`, and every row
`r < h` lies in exactly one tile's row range (no gaps, no overlaps). -/
theorem split_partition (h w parts : ℕ) (h1 : 1 ≤ parts) (h2 : parts ≤ h) :
    (split_image_horizontally h w parts).length = parts ∧
    (∀ i, i < parts - 1 →
      (split_image_horizontally h w parts).getD i ⟨0, 0, 0⟩ =
        { y1 := i * (h / parts), y2 := (i + 1) * (h / parts), width := w }) ∧
    (split_image_horizontally h w parts).getD (parts - 1) ⟨0, 0, 0⟩ =
      { y1 := (parts - 1) * (h / parts), y2 := h, width := w } ∧
    (∀ t ∈ split_image_horizontally h w parts, t.width = w) ∧
    (∀ r, r < h → ∃! i, i < parts ∧
      ((split_image_horizontally h w parts).getD i ⟨0, 0, 0⟩).y1 ≤ r ∧
      r < ((split_image_horizontally h w parts).getD i ⟨0, 0, 0⟩).y2) := by
  have htpos : 0 < h / parts := Nat.div_pos h2 (by omega)
  refine ⟨by simp [split_image_horizontally], ?_, ?_, ?_, ?_⟩
  · intro i hi
    rw [split_getD (by omega)]
    simp [show i ≠ parts - 1 by omega]
  · rw [split_getD (by omega)]
    simp
  · intro t ht
    simp only [split_image_horizontally, List.mem_map, List.mem_range] at ht
    obtain ⟨i, -, rfl⟩ := ht
    rfl
  · intro r hr
    refine ⟨min (r / (h / parts)) (parts - 1), ⟨by omega, ?_, ?_⟩, ?_⟩
    · rw [split_getD (by omega)]
      calc min (r / (h / parts)) (parts - 1) * (h / parts)
          ≤ r / (h / parts) * (h / parts) :=
            Nat.mul_le_mul_right _ (min_le_left _ _)
        _ ≤ r := Nat.div_mul_le_self _ _
    · rw [split_getD (by omega)]
      by_cases hc : r / (h / parts) < parts - 1
      · rw [min_eq_left (le_of_lt hc), if_neg (by omega)]
        have hdm := Nat.div_add_mod r (h / parts)
        have hmod := Nat.mod_lt r htpos
        calc r = h / parts * (r / (h / parts)) + r % (h / parts) := hdm.symm
          _ < h / parts * (r / (h / parts)) + h / parts := by omega
          _ = (r / (h / parts) + 1) * (h / parts) := by ring
      · rw [min_eq_right (by omega), if_pos rfl]
        exact hr
    · rintro j ⟨hj, hy1, hy2⟩
      rw [split_getD hj] at hy1 hy2
      simp only at hy1 hy2
      by_cases hjlast : j = parts - 1
      · subst hjlast
        have : parts - 1 ≤ r / (h / parts) :=
          (Nat.le_div_iff_mul_le htpos).mpr hy1
        rw [min_eq_right this]
      · rw [if_neg hjlast] at hy2
        have hle : j ≤ r / (h / parts) := (Nat.le_div_iff_mul_le htpos).mpr hy1
        have hlt : r / (h / parts) < j + 1 := by
          rw [Nat.div_lt_iff_lt_mul htpos]
          exact hy2
        have hjd : j = r / (h / parts) := by omega
        subst hjd
        exact (min_eq_left (by omega)).symm

/-- Concrete instance of `split_partition`: the spec's scenario, a
3000 x 1000 raster split into four parts gives row ranges
[0,250), [250,500), [500,750), [750,1000). -/
theorem split_partition_witness :
    (split_image_horizontally 1000 3000 4).length = 4 ∧
    (split_image_horizontally 1000 3000 4).getD 0 ⟨0, 0, 0⟩ = ⟨0, 250, 3000⟩ ∧
    (split_image_horizontally 1000 3000 4).getD 1 ⟨0, 0, 0⟩ = ⟨250, 500, 3000⟩ ∧
    (split_image_horizontally 1000 3000 4).getD 2 ⟨0, 0, 0⟩ = ⟨500, 750, 3000⟩ ∧
    (split_image_horizontally 1000 3000 4).getD 3 ⟨0, 0, 0⟩ = ⟨750, 1000, 3000⟩ := by
  obtain ⟨hl, hmid, hlast, -, -⟩ := split_partition 1000 3000 4 (by norm_num) (by norm_num)
  refine ⟨hl, ?_, ?_, ?_, ?_⟩
  · simpa using hmid 0 (by norm_num)
  · simpa using hmid 1 (by norm_num)
  · simpa using hmid 2 (by norm_num)
  · simpa using hlast

/-- Along the schedule, quality and resize factor never increase. -/
lemma schedule_antitone : ∀ k, k < 11 →
    (schedule.getD (k + 1) (0, 0)).1 ≤ (schedule.getD k (0, 0)).1 ∧
    (schedule.getD (k + 1) (0, 0)).2 ≤ (schedule.getD k (0, 0)).2 := by
  intro k hk
  interval_cases k <;>
    exact ⟨by norm_num [schedule], by norm_num [schedule, rVal]⟩

/-- C3: for any fixed input, the compression search is monotone and
bounded: it performs at most twelve candidate encodes, the candidates it
attempts form a prefix of the fixed twelve-entry schedule (quality 95 then
90, then the ten resize-factor decrements), and neither the quality nor
the resize factor ever increases from one encode to the next. -/
theorem compress_search_monotone_bounded (origSize : ℕ) (exif : ExifData) (img : Img)
    (e : ℕ × ℕ → ℕ → ℚ → ℕ) :
    (compress_image_adaptively origSize exif img e).1.length ≤ 12 ∧
    (compress_image_adaptively origSize exif img e).1 =
      schedule.take (compress_image_adaptively origSize exif img e).1.length ∧
    schedule.length = 12 ∧
    (∀ k, k + 1 < (compress_image_adaptively origSize exif img e).1.length →
      ((compress_image_adaptively origSize exif img e).1.getD (k + 1) (0, 0)).1 ≤
        ((compress_image_adaptively origSize exif img e).1.getD k (0, 0)).1 ∧
      ((compress_image_adaptively origSize exif img e).1.getD (k + 1) (0, 0)).2 ≤
        ((compress_image_adaptively origSize exif img e).1.getD k (0, 0)).2) := by
  obtain ⟨htake, hlen, -, -⟩ := compress_master origSize exif img e
  refine ⟨hlen, htake, rfl, ?_⟩
  have hget : ∀ j, j < (compress_image_adaptively origSize exif img e).1.length →
      (compress_image_adaptively origSize exif img e).1.getD j (0, 0) =
        schedule.getD j (0, 0) := by
    intro j hj
    conv_lhs => rw [htake]
    rw [List.getD_eq_getElem?_getD, List.getElem?_take_of_lt hj,
      ← List.getD_eq_getElem?_getD]
  intro k hk
  rw [hget k (by omega), hget (k + 1) hk]
  exact schedule_antitone k (by omega)

/-- Concrete instance of `compress_search_monotone_bounded`: an oracle that
rejects quality 95 but accepts quality 90 makes the search encode the two
candidates (95, 1.0) then (90, 1.0), non-increasing and within the bound. -/
theorem compress_search_monotone_bounded_witness :
    ((compress_image_adaptively 0 ExifData.noExif ⟨100, 100, 0, "RGB"⟩
      (fun _ q _ => if q = 95 then 31457281 else 0)).1.getD 1 (0, 0)).1 ≤
      ((compress_image_adaptively 0 ExifData.noExif ⟨100, 100, 0, "RGB"⟩
        (fun _ q _ => if q = 95 then 31457281 else 0)).1.getD 0 (0, 0)).1 ∧
    ((compress_image_adaptively 0 ExifData.noExif ⟨100, 100, 0, "RGB"⟩
      (fun _ q _ => if q = 95 then 31457281 else 0)).1.getD 1 (0, 0)).2 ≤
      ((compress_image_adaptively 0 ExifData.noExif ⟨100, 100, 0, "RGB"⟩
        (fun _ q _ => if q = 95 then 31457281 else 0)).1.getD 0 (0, 0)).2 ∧
    (compress_image_adaptively 0 ExifData.noExif ⟨100, 100, 0, "RGB"⟩
      (fun _ q _ => if q = 95 then 31457281 else 0)).1.length ≤ 12 := by
  have hc : compress_image_adaptively 0 ExifData.noExif ⟨100, 100, 0, "RGB"⟩
      (fun _ q _ => if q = 95 then 31457281 else 0) =
      ([(95, rVal 0), (90, rVal 0)], some (90, rVal 0)) := by
    show compressLoop MAX_FILE_SIZE (fun q _ => if q = 95 then 31457281 else 0) 95 0 = _
    rw [compressLoop_quality (by norm_num [MAX_FILE_SIZE]),
      compressLoop_fit (by norm_num)]
  have T := compress_search_monotone_bounded 0 ExifData.noExif ⟨100, 100, 0, "RGB"⟩
    (fun _ q _ => if q = 95 then 31457281 else 0)
  have hk := T.2.2.2 0 (by rw [hc]; norm_num)
  exact ⟨hk.1, hk.2, T.1⟩

/-- C9: the orientation normalizer applies exactly the corrective rotation
table — EXIF value 3 rotates 180°, 6 rotates 270°, 8 rotates 90° — and
applies no rotation for any other value, a missing entry, an absent EXIF
block or malformed metadata; it is a total function (no error is ever
surfaced) and always returns the image, which the caller then converts to
RGB before compression (`normalizeForCompress`). -/
theorem orientation_correction_table (img : Img) :
    correct_image_orientation (.tags (some 3)) img = img.rotate 180 ∧
    correct_image_orientation (.tags (some 6)) img = img.rotate 270 ∧
    correct_image_orientation (.tags (some 8)) img = img.rotate 90 ∧
    (∀ v : Option ℤ, v ≠ some 3 → v ≠ some 6 → v ≠ some 8 →
      correct_image_orientation (.tags v) img = img) ∧
    correct_image_orientation ExifData.noExif img = img ∧
    correct_image_orientation ExifData.malformed img = img ∧
    (∀ exif : ExifData, (normalizeForCompress exif img).mode = "RGB") := by
  refine ⟨rfl, rfl, rfl, ?_, rfl, rfl, ?_⟩
  · intro v h3 h6 h8
    simp [correct_image_orientation, h3, h6, h8]
  · intro exif
    simp only [normalizeForCompress]
    split_ifs with hm
    · exact hm
    · rfl

/-- Concrete instance of `orientation_correction_table`: EXIF value 1 is
left unrotated, value 6 rotates by 270°. -/
theorem orientation_correction_table_witness :
    correct_image_orientation (ExifData.tags (some 1)) ⟨30, 40, 0, "P"⟩ = ⟨30, 40, 0, "P"⟩ ∧
    correct_image_orientation (ExifData.tags (some 6)) ⟨30, 40, 0, "P"⟩ =
      Img.rotate ⟨30, 40, 0, "P"⟩ 270 := by
  have T := orientation_correction_table ⟨30, 40, 0, "P"⟩
  exact ⟨T.2.2.2.1 (some 1) (by decide) (by decide) (by decide), T.2.1⟩

/-- C10: the pre-downscale step runs exactly once, before the search loop
(the loop operates on `searchDims`, computed a single time), and only when
both the original byte size exceeds the budget and the raster exceeds
20 megapixels.  In that case the new width `nw` satisfies
`nw² · h ≤ 2·10⁷ · w < (nw+1)² · h`, i.e. `nw` is the truncation (not the
rounding) of `w · √(20 / megapixels) = √(2·10⁷ · w / h)`, and
symmetrically for the height.  If either condition fails, the raster
enters the search loop at its original dimensions. -/
theorem predownscale_once (origSize w h : ℕ) :
    (MAX_FILE_SIZE < origSize ∧ 20000000 < w * h →
      searchDims origSize w h =
        (Nat.sqrt (20000000 * w / h), Nat.sqrt (20000000 * h / w)) ∧
      Nat.sqrt (20000000 * w / h) ^ 2 * h ≤ 20000000 * w ∧
      20000000 * w < (Nat.sqrt (20000000 * w / h) + 1) ^ 2 * h ∧
      Nat.sqrt (20000000 * h / w) ^ 2 * w ≤ 20000000 * h ∧
      20000000 * h < (Nat.sqrt (20000000 * h / w) + 1) ^ 2 * w) ∧
    (¬ (MAX_FILE_SIZE < origSize ∧ 20000000 < w * h) →
      searchDims origSize w h = (w, h)) ∧
    (∀ (exif : ExifData) (img : Img) (e : ℕ × ℕ → ℕ → ℚ → ℕ),
      compress_image_adaptively origSize exif img e =
        compressLoop MAX_FILE_SIZE
          (e (searchDims origSize (normalizeForCompress exif img).width
            (normalizeForCompress exif img).height)) 95 0) := by
  refine ⟨?_, ?_, fun _ _ _ => rfl⟩
  · rintro ⟨hsz, hmp⟩
    have hw : 0 < w := by
      rcases Nat.eq_zero_or_pos w with rfl | hw
      · simp at hmp
      · exact hw
    have hh : 0 < h := by
      rcases Nat.eq_zero_or_pos h with rfl | hh
      · simp at hmp
      · exact hh
    refine ⟨by rw [searchDims, if_pos ⟨hsz, hmp⟩], ?_, ?_, ?_, ?_⟩
    · exact (Nat.le_div_iff_mul_le hh).mp (Nat.sqrt_le' _)
    · have h2 := Nat.lt_succ_sqrt' (20000000 * w / h)
      exact (Nat.div_lt_iff_lt_mul hh).mp h2
    · exact (Nat.le_div_iff_mul_le hw).mp (Nat.sqrt_le' _)
    · have h2 := Nat.lt_succ_sqrt' (20000000 * h / w)
      exact (Nat.div_lt_iff_lt_mul hw).mp h2
  · intro hc
    rw [searchDims, if_neg hc]

/-- Concrete instance of `predownscale_once`: a 40 MB, 6000 x 6000 raster
(36 megapixels) is pre-downscaled to 4472 x 4472 (≈ 20 megapixels). -/
theorem predownscale_once_witness :
    (MAX_FILE_SIZE < 40000000 ∧ 20000000 < 6000 * 6000) ∧
    searchDims 40000000 6000 6000 = (4472, 4472) := by
  have hcond : MAX_FILE_SIZE < 40000000 ∧ 20000000 < 6000 * 6000 := by
    norm_num [MAX_FILE_SIZE]
  have T := (predownscale_once 40000000 6000 6000).1 hcond
  refine ⟨hcond, ?_⟩
  rw [T.1]
  norm_num

/-- C8: a file name already in the processed tracker is filtered out of the
batch before any task is created for it.  Since `/process_single` tasks
are created only for the names `enqueue_tasks` returns and each worker
downloads exactly its task's `file_path`, an already-marked file is never
downloaded nor re-processed: the dedup check (line 140) precedes the
download (line 190). -/
theorem tracker_dedup_before_download (processed : Finset String)
    (blobs : List String) (maxFiles : ℕ) (name : String) (h : name ∈ processed) :
    name ∉ enqueue_tasks processed blobs maxFiles := by
  intro hmem
  have hmem' := List.take_subset maxFiles _ hmem
  simp only [List.mem_filter, Bool.and_eq_true, decide_eq_true_eq] at hmem'
  exact hmem'.2.1 h

/-- Concrete instance of `tracker_dedup_before_download`: with "a" already
tracked, listing ["a", "b"] enqueues no task for "a". -/
theorem tracker_dedup_before_download_witness :
    "a" ∉ enqueue_tasks {"a"} ["a", "b"] 5 :=
  tracker_dedup_before_download {"a"} ["a", "b"] 5 "a" (by simp)

/-- Encode-size oracle that always reports one byte over the budget, so no
candidate ever fits. -/
def oversizeOracle : ℕ × ℕ → ℕ → ℚ → ℕ := fun _ _ _ => 31457281

/-- Under `oversizeOracle` the search encodes the entire schedule and fails. -/
lemma oversize_eval :
    compress_image_adaptively 0 ExifData.noExif ⟨10, 10, 0, "RGB"⟩ oversizeOracle =
      (schedule, none) := by
  obtain ⟨-, -, hfind, hnone⟩ :=
    compress_master 0 ExifData.noExif ⟨10, 10, 0, "RGB"⟩ oversizeOracle
  have h2 : (compress_image_adaptively 0 ExifData.noExif ⟨10, 10, 0, "RGB"⟩
      oversizeOracle).2 = none := by
    rw [hfind]
    simp [schedule, List.find?, oversizeOracle, MAX_FILE_SIZE]
  exact Prod.ext_iff.mpr ⟨hnone h2, h2⟩

/-- C5 as stated is false: with a never-fitting oracle the source performs
its final candidate encode at the float value `resize_factor =
0.4999999999999996` (= `rVal 10`), which is strictly below the nominal
floor `min_resize = 0.5`, because ten binary64 subtractions of `0.05`
from `1.0` undershoot one half. -/
theorem compress_floor_counterexample :
    (compress_image_adaptively 0 ExifData.noExif ⟨10, 10, 0, "RGB"⟩ oversizeOracle).1 =
      schedule ∧
    (compress_image_adaptively 0 ExifData.noExif ⟨10, 10, 0, "RGB"⟩ oversizeOracle).2 =
      none ∧
    (90, rVal 10) ∈ schedule ∧
    rVal 10 < 1 / 2 := by
  refine ⟨congrArg Prod.fst oversize_eval, congrArg Prod.snd oversize_eval, ?_,
    rVal_ten_lt_half⟩
  simp [schedule]

/-- C5 amended: every candidate encode is performed at quality ≥ 90 and at
a resize factor ≥ `rVal 10` = 0.4999999999999996 (the exact binary64
value ten subtractions of 0.05 produce, 7·2⁻⁵⁴ below the nominal 0.5
floor); the search fails only after the last candidate, whose parameters
are exactly quality 90 and resize factor `rVal 10`. -/
theorem compress_floor_amended (origSize : ℕ) (exif : ExifData) (img : Img)
    (e : ℕ × ℕ → ℕ → ℚ → ℕ) :
    (∀ c ∈ (compress_image_adaptively origSize exif img e).1,
      90 ≤ c.1 ∧ rVal 10 ≤ c.2) ∧
    ((compress_image_adaptively origSize exif img e).2 = none →
      (compress_image_adaptively origSize exif img e).1.getLast? =
        some (90, rVal 10)) := by
  obtain ⟨htake, -, -, hnone⟩ := compress_master origSize exif img e
  constructor
  · intro c hc
    have hcs : c ∈ schedule := by
      rw [htake] at hc
      exact List.take_subset _ _ hc
    have hall : ∀ c ∈ schedule, 90 ≤ c.1 ∧ rVal 10 ≤ c.2 := by
      intro d hd
      simp only [schedule, List.mem_cons, List.not_mem_nil, or_false] at hd
      rcases hd with rfl | rfl | rfl | rfl | rfl | rfl | rfl | rfl | rfl | rfl | rfl | rfl <;>
        exact ⟨by norm_num, by norm_num [rVal]⟩
    exact hall c hcs
  · intro h2
    rw [hnone h2]
    rfl

/-- Concrete instance of `compress_floor_amended`: under the never-fitting
oracle the failing search's last encode is exactly (quality 90,
resize factor `rVal 10`). -/
theorem compress_floor_amended_witness :
    (compress_image_adaptively 0 ExifData.noExif ⟨10, 10, 0, "RGB"⟩
      oversizeOracle).1.getLast? = some (90, rVal 10) := by
  exact (compress_floor_amended 0 ExifData.noExif ⟨10, 10, 0, "RGB"⟩ oversizeOracle).2
    (congrArg Prod.snd oversize_eval)

/-- C6: the tiler performs no upfront validation.  For a raster of height 2
split into 3 parts (`parts > height`), the source raises no error and
returns three tiles, the first two of height zero. -/
theorem split_no_validation_on_excess_parts :
    split_image_horizontally 2 5 3 = [⟨0, 0, 5⟩, ⟨0, 0, 5⟩, ⟨0, 2, 5⟩] ∧
    ((split_image_horizontally 2 5 3).getD 0 ⟨0, 0, 0⟩).y2 =
      ((split_image_horizontally 2 5 3).getD 0 ⟨0, 0, 0⟩).y1 ∧
    (split_image_horizontally 2 5 3).length = 3 := by
  exact ⟨rfl, rfl, rfl⟩

/-- C4 as stated is false: a supported `.pdf` input is handed to the tiler
without ever passing through the adaptive compressor, and the JPEG it
hands over (the rendered first page) carries no byte-budget guarantee —
here it is one byte over budget and the request still succeeds. -/
theorem pdf_bypasses_compressor_counterexample :
    Stage.compressor ∉ (process_single ∅ [] "a.pdf" ".pdf" 0 ExifData.noExif
      ⟨10, 10, 0, "RGB"⟩ oversizeOracle 31457281 "a_tiles.pdf").stages ∧
    (process_single ∅ [] "a.pdf" ".pdf" 0 ExifData.noExif
      ⟨10, 10, 0, "RGB"⟩ oversizeOracle 31457281 "a_tiles.pdf").tilerInputBytes =
      some 31457281 ∧
    MAX_FILE_SIZE < 31457281 ∧
    Stage.tiler ∈ (process_single ∅ [] "a.pdf" ".pdf" 0 ExifData.noExif
      ⟨10, 10, 0, "RGB"⟩ oversizeOracle 31457281 "a_tiles.pdf").stages ∧
    (process_single ∅ [] "a.pdf" ".pdf" 0 ExifData.noExif
      ⟨10, 10, 0, "RGB"⟩ oversizeOracle 31457281 "a_tiles.pdf").response =
      Response.procesado "a.pdf" := by
  refine ⟨?_, rfl, by norm_num [MAX_FILE_SIZE], ?_, rfl⟩
  · simp [process_single]
  · simp [process_single]

/-- C4 amended: for every allow-listed raster input the pipeline passes the
normalized raster through the adaptive compressor before tiling
(download → compressor → tiler → assembler → upload → tracker update), and
whenever the compressor succeeds the image handed to the tiler is a JPEG
at or under the byte budget; `.pdf` inputs, however, bypass the
compressor — the first page is rendered straight to JPEG and handed to
the tiler with no byte-budget guarantee. -/
theorem pipeline_stage_order_amended (tracker : Finset String) (uploads : List String)
    (filePath ext : String) (origSize : ℕ) (exif : ExifData) (img : Img)
    (e : ℕ × ℕ → ℕ → ℚ → ℕ) (pdfB : ℕ) (outName : String) :
    (rasterExts.contains ext = true →
      ∀ q r, (compress_image_adaptively origSize exif img e).2 = some (q, r) →
        (process_single tracker uploads filePath ext origSize exif img e pdfB
          outName).stages =
          [.download, .compressor, .tiler, .assembler, .upload, .trackerUpdate] ∧
        ∃ b, (process_single tracker uploads filePath ext origSize exif img e pdfB
          outName).tilerInputBytes = some b ∧ b ≤ MAX_FILE_SIZE) ∧
    (ext = ".pdf" →
      (process_single tracker uploads filePath ext origSize exif img e pdfB
        outName).stages =
        [.download, .pdfExtract, .tiler, .assembler, .upload, .trackerUpdate] ∧
      Stage.compressor ∉ (process_single tracker uploads filePath ext origSize exif img e
        pdfB outName).stages) := by
  constructor
  · intro hext q r hsome
    have hpdf : ¬ ext = ".pdf" := by
      intro hh
      rw [hh] at hext
      simp [rasterExts] at hext
    rw [process_single, if_neg hpdf, if_pos hext, hsome]
    refine ⟨rfl, ⟨_, rfl, ?_⟩⟩
    obtain ⟨-, -, hfind, -⟩ := compress_master origSize exif img e
    rw [hfind] at hsome
    simpa using List.find?_some hsome
  · intro hpdf
    rw [process_single, if_pos hpdf]
    exact ⟨rfl, by simp⟩

/-- Concrete instance of `pipeline_stage_order_amended`: a `.jpg` whose
first candidate fits runs all six stages with a budget-respecting tiler
input, and a `.pdf` runs the compressor-free stage list. -/
theorem pipeline_stage_order_amended_witness :
    (process_single ∅ [] "a.jpg" ".jpg" 0 ExifData.noExif ⟨100, 100, 0, "RGB"⟩
      (fun _ _ _ => (0 : ℕ)) 0 "a_tiles.pdf").stages =
      [.download, .compressor, .tiler, .assembler, .upload, .trackerUpdate] ∧
    (process_single ∅ [] "b.pdf" ".pdf" 0 ExifData.noExif ⟨100, 100, 0, "RGB"⟩
      (fun _ _ _ => (0 : ℕ)) 0 "b_tiles.pdf").stages =
      [.download, .pdfExtract, .tiler, .assembler, .upload, .trackerUpdate] := by
  have hc : (compress_image_adaptively 0 ExifData.noExif ⟨100, 100, 0, "RGB"⟩
      (fun _ _ _ => (0 : ℕ))).2 = some (95, 1) := by
    have h := compressLoop_fit (B := MAX_FILE_SIZE)
      (e := fun _ _ => (0 : ℕ)) (q := 95) (i := 0) (Nat.zero_le _)
    exact congrArg Prod.snd h
  constructor
  · exact ((pipeline_stage_order_amended ∅ [] "a.jpg" ".jpg" 0 ExifData.noExif
      ⟨100, 100, 0, "RGB"⟩ (fun _ _ _ => (0 : ℕ)) 0 "a_tiles.pdf").1
      (by decide) 95 1 hc).1
  · exact ((pipeline_stage_order_amended ∅ [] "b.pdf" ".pdf" 0 ExifData.noExif
      ⟨100, 100, 0, "RGB"⟩ (fun _ _ _ => (0 : ℕ)) 0 "b_tiles.pdf").2 rfl).1

/-- C7: a failing single-file pipeline aborts entirely.  When the
compression search exhausts both floors (`compress_image_adaptively`
returns `none`, the `ValueError` of line 81), the worker uploads nothing,
performs no tiling/assembly, leaves the tracker untouched, and surfaces a
per-file structured error; and in general every error response leaves the
tracker and the uploads exactly as they were. -/
theorem process_failure_aborts (tracker : Finset String) (uploads : List String)
    (filePath ext : String) (origSize : ℕ) (exif : ExifData) (img : Img)
    (e : ℕ × ℕ → ℕ → ℚ → ℕ) (pdfB : ℕ) (outName : String) :
    (rasterExts.contains ext = true →
      (compress_image_adaptively origSize exif img e).2 = none →
      (process_single tracker uploads filePath ext origSize exif img e pdfB
        outName).tracker = tracker ∧
      (process_single tracker uploads filePath ext origSize exif img e pdfB
        outName).uploads = uploads ∧
      (process_single tracker uploads filePath ext origSize exif img e pdfB
        outName).response =
        Response.error "No se pudo reducir el archivo sin comprometer la calidad." ∧
      Stage.upload ∉ (process_single tracker uploads filePath ext origSize exif img e pdfB
        outName).stages ∧
      Stage.trackerUpdate ∉ (process_single tracker uploads filePath ext origSize exif img
        e pdfB outName).stages) ∧
    (∀ m, (process_single tracker uploads filePath ext origSize exif img e pdfB
        outName).response = Response.error m →
      (process_single tracker uploads filePath ext origSize exif img e pdfB
        outName).tracker = tracker ∧
      (process_single tracker uploads filePath ext origSize exif img e pdfB
        outName).uploads = uploads) := by
  constructor
  · intro hext hnone
    have hpdf : ¬ ext = ".pdf" := by
      intro hh
      rw [hh] at hext
      simp [rasterExts] at hext
    rw [process_single, if_neg hpdf, if_pos hext, hnone]
    exact ⟨rfl, rfl, rfl, by simp, by simp⟩
  · intro m hm
    by_cases hpdf : ext = ".pdf"
    · rw [process_single, if_pos hpdf] at hm
      simp at hm
    · by_cases hext : rasterExts.contains ext = true
      · rw [process_single, if_neg hpdf, if_pos hext] at hm ⊢
        cases hcomp : (compress_image_adaptively origSize exif img e).2 with
        | none =>
          exact ⟨rfl, rfl⟩
        | some p =>
          rcases p with ⟨q, r⟩
          rw [hcomp] at hm
          exact Response.noConfusion hm
      · rw [process_single, if_neg hpdf, if_neg hext] at hm
        simp at hm

/-- Concrete instance of `process_failure_aborts`: a `.jpg` whose search
exhausts the schedule leaves tracker and uploads unchanged and returns the
budget-unreachable error. -/
theorem process_failure_aborts_witness :
    (process_single {"x"} ["u"] "a.jpg" ".jpg" 0 ExifData.noExif ⟨10, 10, 0, "RGB"⟩
      oversizeOracle 0 "a_tiles.pdf").tracker = {"x"} ∧
    (process_single {"x"} ["u"] "a.jpg" ".jpg" 0 ExifData.noExif ⟨10, 10, 0, "RGB"⟩
      oversizeOracle 0 "a_tiles.pdf").uploads = ["u"] ∧
    (process_single {"x"} ["u"] "a.jpg" ".jpg" 0 ExifData.noExif ⟨10, 10, 0, "RGB"⟩
      oversizeOracle 0 "a_tiles.pdf").response =
      Response.error "No se pudo reducir el archivo sin comprometer la calidad." := by
  have T := (process_failure_aborts {"x"} ["u"] "a.jpg" ".jpg" 0 ExifData.noExif
    ⟨10, 10, 0, "RGB"⟩ oversizeOracle 0 "a_tiles.pdf").1 (by decide)
    (congrArg Prod.snd oversize_eval)
  exact ⟨T.1, T.2.1, T.2.2.1⟩
